import Mathlib

/-!
Verification development for the `metadater` photo-metadata tool
(`metadater.py`).  The script reconciles a capture date and a GPS location
for each file in a directory from three fallible sources (embedded EXIF
metadata, a `<name>.json` sidecar, the filename), merges them with a
reverse-iteration priority policy, and writes the result back into a copy
of the file plus its filesystem timestamps.

The embedding below models the pure data flow of the script.  External
library routines (Python `str.lower`, `int`, `pathlib` suffix/stem
computation, `datetime.strptime`/`strftime`, the `exif` container codec,
`json.load`) are modelled as explicit Lean functions or as oracle fields of
a `Config` record; machine floats are modelled as exact rationals.
-/

namespace Metadater

/-- Model of Python `str.lower` on one character (ASCII range, which is all
the strategy names use): an upper-case letter is shifted down by 32, every
other character is unchanged. -/
def charLower (c : Char) : Char :=
  if 65 ≤ c.toNat ∧ c.toNat ≤ 90 then Char.ofNat (c.toNat + 32) else c

/-- Model of Python `str.lower` on a string: `charLower` applied pointwise. -/
def pyLower (s : String) : String := ⟨s.data.map charLower⟩

/-- Model of Python `int(s)` on a string: an optional sign followed by a
non-empty run of decimal digits parses to the signed value; anything else
raises `ValueError`, modelled as `none`. -/
def parseIntStr (s : String) : Option Int :=
  let p : Int × List Char :=
    match s.data with
    | '-' :: rest => (-1, rest)
    | '+' :: rest => (1, rest)
    | cs => (1, cs)
  if p.2 ≠ [] ∧ p.2.all Char.isDigit then
    some (p.1 * (p.2.foldl (fun a c => a * 10 + (c.toNat - 48)) 0 : Nat))
  else none

/-- Model of `pathlib.Path.suffix` for a plain file name: the substring from
the last dot onwards, provided that dot is neither the first nor the last
character of the name; otherwise the empty string. -/
def pySuffix (name : String) : String :=
  let cs := name.data
  let afterRev := cs.reverse.takeWhile (fun c => c ≠ '.')
  if afterRev.length = cs.length then ""
  else
    let i := cs.length - 1 - afterRev.length
    if 0 < i ∧ i < cs.length - 1 then String.mk ('.' :: afterRev.reverse) else ""

/-- Model of `pathlib.Path.stem`: the name with its `pySuffix` removed. -/
def pyStem (name : String) : String :=
  String.mk (name.data.take (name.data.length - (pySuffix name).data.length))

/-- Model of Python `name.startswith(".")`. -/
def pyStartsWithDot (name : String) : Bool :=
  match name.data with
  | '.' :: _ => true
  | _ => false

/-- Model of the Python expression `x or y` for the optional date/location
values of the script.  A `datetime` instance and a non-empty coordinate
tuple are always truthy in Python, so truthiness coincides with
non-`None`-ness here. -/
def pyOr {α : Type} (a b : Option α) : Option α :=
  match a with
  | some x => some x
  | none => b

/-- Capture timestamps (`datetime` values) are modelled by their exact epoch
second as a rational number. -/
abbrev DateTime := ℚ

/-- Model of `datetime.timestamp()`: the epoch second of the value. -/
def DateTime.timestamp (d : DateTime) : ℚ := d

/-- Model of `datetime.fromtimestamp(n / 1000)`: the date whose epoch second
is the integer millisecond count divided by 1000. -/
def fromTimestampMs (n : Int) : DateTime := (n : ℚ) / 1000

/-- Model of `datetime.fromtimestamp(n, timezone.utc)`. -/
def fromTimestampUtc (n : Int) : DateTime := (n : ℚ)

/-- Decimal coordinates: `(latitude, longitude)` in signed degrees. -/
abbrev CoordinatesDec := ℚ × ℚ

/-- A degrees/minutes/seconds triple.  The source annotates the first two
components as `int`, but they travel through the same tuple type as the
seconds, so all three are modelled as rationals (`coords_dec2dms` produces
integer-valued ones). -/
abbrev DegMinSec := ℚ × ℚ × ℚ

/-- A DMS value together with its hemisphere reference letter. -/
abbrev LatitudeDMS := DegMinSec × String

abbrev LongitudeDMS := DegMinSec × String

/-- DMS coordinates: latitude component then longitude component. -/
abbrev CoordinatesDMS := LatitudeDMS × LongitudeDMS

/-- `coords_dms2dec` from the source: `deg + min/60 + sec/3600`, negated when
the hemisphere letter is not `N` (latitude) resp. not `E` (longitude). -/
def coords_dms2dec (coords : CoordinatesDMS) : CoordinatesDec :=
  let lat := coords.1.1.1 + coords.1.1.2.1 / 60 + coords.1.1.2.2 / 3600
  let lat := lat * (if coords.1.2 = "N" then 1 else -1)
  let lon := coords.2.1.1 + coords.2.1.2.1 / 60 + coords.2.1.2.2 / 3600
  let lon := lon * (if coords.2.2 = "E" then 1 else -1)
  (lat, lon)

/-- `coords_dec2dms` from the source: hemisphere from the sign, degrees and
minutes by truncation (`int` of a non-negative value, i.e. the floor),
seconds as the remaining fraction of a minute times 60. -/
def coords_dec2dms (coords : CoordinatesDec) : CoordinatesDMS :=
  let lat_o := if coords.1 ≥ 0 then "N" else "S"
  let lat_d : ℚ := (⌊|coords.1|⌋ : ℤ)
  let lat_m : ℚ := (⌊(|coords.1| - lat_d) * 60⌋ : ℤ)
  let lat_s : ℚ := ((|coords.1| - lat_d) * 60 - lat_m) * 60
  let lon_o := if coords.2 ≥ 0 then "E" else "W"
  let lon_d : ℚ := (⌊|coords.2|⌋ : ℤ)
  let lon_m : ℚ := (⌊(|coords.2| - lon_d) * 60⌋ : ℤ)
  let lon_s : ℚ := ((|coords.2| - lon_d) * 60 - lon_m) * 60
  (((lat_d, lat_m, lat_s), lat_o), ((lon_d, lon_m, lon_s), lon_o))

lemma dms_component_roundtrip (a : ℚ) (ha : 0 ≤ a) :
    ((⌊a⌋ : ℤ) : ℚ) + ((⌊(a - (⌊a⌋ : ℤ)) * 60⌋ : ℤ) : ℚ) / 60 +
      (((a - (⌊a⌋ : ℤ)) * 60 - ((⌊(a - (⌊a⌋ : ℤ)) * 60⌋ : ℤ) : ℚ)) * 60) / 3600 = a := by
  field_simp
  simp only [Int.fract]
  ring

/-- C4: converting decimal coordinates to DMS form and back returns the input
exactly (the model uses exact rational arithmetic, so equality holds with no
tolerance needed), for latitudes in [-90, 90] and longitudes in [-180, 180]. -/
theorem c4_coords_roundtrip (lat lon : ℚ)
    (h1 : -90 ≤ lat) (h2 : lat ≤ 90) (h3 : -180 ≤ lon) (h4 : lon ≤ 180) :
    coords_dms2dec (coords_dec2dms (lat, lon)) = (lat, lon) := by
  unfold coords_dms2dec coords_dec2dms
  simp only
  by_cases hl : lat ≥ 0
  · have hlat := dms_component_roundtrip lat hl
    by_cases hg : lon ≥ 0
    · have hlon := dms_component_roundtrip lon hg
      rw [if_pos hl, if_pos hg, if_pos rfl, if_pos rfl, abs_of_nonneg hl,
        abs_of_nonneg hg, hlat, hlon]
      simp
    · have hlon := dms_component_roundtrip (-lon) (by linarith [lt_of_not_ge hg])
      rw [if_pos hl, if_neg hg, if_pos rfl, if_neg (by decide : ¬("W" : String) = "E"),
        abs_of_nonneg hl, abs_of_neg (lt_of_not_ge hg), hlat, hlon]
      simp
  · have hlat := dms_component_roundtrip (-lat) (by linarith [lt_of_not_ge hl])
    by_cases hg : lon ≥ 0
    · have hlon := dms_component_roundtrip lon hg
      rw [if_neg hl, if_pos hg, if_neg (by decide : ¬("S" : String) = "N"), if_pos rfl,
        abs_of_neg (lt_of_not_ge hl), abs_of_nonneg hg, hlat, hlon]
      simp
    · have hlon := dms_component_roundtrip (-lon) (by linarith [lt_of_not_ge hg])
      rw [if_neg hl, if_neg hg, if_neg (by decide : ¬("S" : String) = "N"),
        if_neg (by decide : ¬("W" : String) = "E"),
        abs_of_neg (lt_of_not_ge hl), abs_of_neg (lt_of_not_ge hg), hlat, hlon]
      simp

/-- Witness for C4 at the latitude/longitude pair (3/2, -45/4). -/
theorem c4_coords_roundtrip_witness :
    coords_dms2dec (coords_dec2dms ((3 : ℚ)/2, -(45 : ℚ)/4)) = ((3 : ℚ)/2, -(45 : ℚ)/4) :=
  c4_coords_roundtrip ((3 : ℚ)/2) (-(45 : ℚ)/4)
    (by norm_num) (by norm_num) (by norm_num) (by norm_num)

/-- A GPS attribute value as read from the container: either a proper
degrees/minutes/seconds tuple or a value of some other shape (the source
checks `type(...) is not tuple`). -/
inductive GpsAttr : Type
| tup (v : DegMinSec)
| nonTuple
deriving DecidableEq

/-- Model of an opened embedded-metadata container (`exif.Image`).  A field
whose value is `none` models the attribute raising `AttributeError`.
`gpsWritable` models whether the container accepts the DMS tuple shape when
the writer assigns GPS fields back (a `TypeError` on assignment is modelled
by `false`). -/
structure ExifData : Type where
  has_exif : Bool
  datetimeAttr : Option String
  gps_latitude : Option GpsAttr
  gps_longitude : Option GpsAttr
  gps_latitude_ref : Option String
  gps_longitude_ref : Option String
  gpsWritable : Bool
deriving DecidableEq

/-- Errors that Python exceptions are modelled by. -/
inductive PErr : Type
| valueError
| jsonDecodeError
| keyError
deriving DecidableEq

/-- `get_info_from_exif` from the source.  `strptimeExif` is the oracle for
`datetime.strptime(s, DATETIME_STR_FORMAT)` (`none` models `ValueError`).
The date field is parsed first with `int(...)` as a millisecond epoch; on
`ValueError` the fixed textual pattern is tried; because the source's inner
handler reads `except AttributeError or ValueError:` - which in Python
catches only `AttributeError` - a second parse failure raises `ValueError`
out of the function, modelled by `Except.error`. -/
def get_info_from_exif (strptimeExif : String → Option DateTime) (image : ExifData) :
    Except PErr (Option DateTime × Option CoordinatesDMS) :=
  if image.has_exif then do
    let date : Option DateTime ←
      match image.datetimeAttr with
      | none => pure none
      | some s =>
        match parseIntStr s with
        | some n => pure (some (fromTimestampMs n))
        | none =>
          match strptimeExif s with
          | some d => pure (some d)
          | none => Except.error PErr.valueError
    let location : Option CoordinatesDMS :=
      match image.gps_latitude with
      | some (GpsAttr.tup lat) =>
        match image.gps_longitude with
        | some (GpsAttr.tup lon) =>
          match image.gps_latitude_ref, image.gps_longitude_ref with
          | some latRef, some lonRef => some ((lat, latRef), (lon, lonRef))
          | _, _ => none
        | _ => none
      | _ => none
    pure (date, location)
  else pure (none, none)

/-- The parsed content of a `<name>.json` sidecar file, reduced to the paths
the source reads.  A `none` field models the key path being absent from the
JSON object (`KeyError` on lookup). -/
structure SidecarJson : Type where
  photoTakenTime_timestamp : Option String
  geoData_latitude : Option ℚ
  geoData_longitude : Option ℚ
deriving DecidableEq

/-- A sidecar file on disk: either bytes `json.load` rejects, or a parsed
JSON object. -/
inductive SidecarFile : Type
| malformedJson
| parsed (j : SidecarJson)
deriving DecidableEq

/-- `get_info_from_json` from the source.  The argument is the sidecar next
to the file (`none` when no `<name>.json` exists).  A missing sidecar yields
`(absent, absent)`; unparseable bytes or a missing/unparseable field raise,
modelled by `Except.error`.  A `(0, 0)` coordinate pair is the "no GPS data"
sentinel and yields an absent location. -/
def get_info_from_json (sidecar : Option SidecarFile) :
    Except PErr (Option DateTime × Option CoordinatesDMS) :=
  match sidecar with
  | none => pure (none, none)
  | some SidecarFile.malformedJson => Except.error PErr.jsonDecodeError
  | some (SidecarFile.parsed j) => do
    let ts : Int ←
      match j.photoTakenTime_timestamp with
      | none => Except.error PErr.keyError
      | some s =>
        match parseIntStr s with
        | some n => pure n
        | none => Except.error PErr.valueError
    let date : Option DateTime := some (fromTimestampUtc ts)
    let location : CoordinatesDec ←
      match j.geoData_latitude, j.geoData_longitude with
      | some lat, some lon => pure (lat, lon)
      | _, _ => Except.error PErr.keyError
    pure (date, if location ≠ ((0 : ℚ), (0 : ℚ)) then some (coords_dec2dms location) else none)

/-- `get_info_from_filename` from the source: try each format in turn on the
stem truncated to the format's rendered length; the first successful parse
wins; location is always absent.  `strptime fmt` is the oracle for
`datetime.strptime(_, fmt)` and `fmtLen fmt` for
`len(datetime.today().strftime(fmt))`. -/
def get_info_from_filename (strptime : String → String → Option DateTime)
    (fmtLen : String → Nat) (stem : String) (formats : List String) :
    Option DateTime × Option CoordinatesDMS :=
  (formats.findSome? (fun fstr => strptime (String.mk (stem.data.take (fmtLen fstr))) fstr),
    none)

/-- The external date-parsing and date-formatting collaborators used by the
script, passed as oracles. -/
structure Config : Type where
  strptime : String → String → Option DateTime
  fmtLen : String → Nat
  strptimeExif : String → Option DateTime
  strftimeExif : DateTime → String

/-- One input file as the script sees it: the `is_file` test, the name, the
raw bytes, the result of attempting `Image(fo)` on its bytes (`none` when
the constructor raises), and the adjacent sidecar. -/
structure FileModel : Type where
  is_file : Bool
  name : String
  fileBytes : List Nat
  image : Option ExifData
  sidecar : Option SidecarFile

/-- The running state of the strategy loop in `process_one_file`:
`(date, location, image)`. -/
abbrev LoopState := Option DateTime × Option CoordinatesDMS × Option ExifData

/-- One iteration of the strategy loop of `process_one_file`: lower-case the
strategy name; for a recognized name run the extractor and merge via the
Python `or` idiom (`date = e_date or date` etc.); the `exif` branch opens
the container, resetting the retained image to `None` when opening fails;
unrecognized names leave the state unchanged. -/
def stratStep (cfg : Config) (file : FileModel) (formats : List String)
    (st : LoopState) (strategy : String) : Except PErr LoopState :=
  let s := pyLower strategy
  if s = "exif" then
    match file.image with
    | none => pure (st.1, st.2.1, none)
    | some image => do
      let r ← get_info_from_exif cfg.strptimeExif image
      pure (pyOr r.1 st.1, pyOr r.2 st.2.1, some image)
  else if s = "json" then do
    let r ← get_info_from_json file.sidecar
    pure (pyOr r.1 st.1, pyOr r.2 st.2.1, st.2.2)
  else if s = "filename" then
    let r := get_info_from_filename cfg.strptime cfg.fmtLen (pyStem file.name) formats
    pure (pyOr r.1 st.1, pyOr r.2 st.2.1, st.2.2)
  else pure st

/-- The strategy loop of `process_one_file`: fold `stratStep` over the
strategy list in reverse order, starting from `(None, None, None)`; a raised
exception aborts the loop. -/
def stratLoop (cfg : Config) (file : FileModel) (formats : List String)
    (strategies : List String) : Except PErr LoopState :=
  strategies.reverse.foldl
    (fun acc s => acc >>= fun st => stratStep cfg file formats st s)
    (pure (none, none, none))

/-- A fixed injection of a rational into bytes, used by the modelled codec. -/
def encodeRat (q : ℚ) : List Nat := [q.num.natAbs, q.den]

/-- A fixed injection of a DMS coordinate pair into bytes, used by the
modelled codec. -/
def encodeGps (c : CoordinatesDMS) : List Nat :=
  encodeRat c.1.1.1 ++ encodeRat c.1.1.2.1 ++ encodeRat c.1.1.2.2 ++
    c.1.2.data.map Char.toNat ++
    encodeRat c.2.1.1 ++ encodeRat c.2.1.2.1 ++ encodeRat c.2.1.2.2 ++
    c.2.2.data.map Char.toNat

/-- Modelled from the spec: the external metadata-container codec's
`image.get_file()` serialization.  A container whose fields were never
reassigned serializes back to exactly the bytes it was opened from; a
container with reassigned date or GPS fields serializes to a patched byte
form. -/
def serializeImage (raw : List Nat) (pendDt : Option String) (pendGps : Option CoordinatesDMS) :
    List Nat :=
  match pendDt, pendGps with
  | none, none => raw
  | dt, gps =>
    raw ++ (dt.elim [] (fun s => s.data.map Char.toNat)) ++ (gps.elim [] encodeGps)

/-- Everything `process_one_file` does to the world for one non-skipped
file: the reconciled date and location it reports, the bytes written to the
output path, and the `(atime, mtime)` pair passed to `os.utime` (or `none`
when the timestamps are left untouched). -/
structure WriteOutcome : Type where
  date : Option DateTime
  location : Option CoordinatesDMS
  outBytes : List Nat
  utime : Option (ℚ × ℚ)

/-- `process_one_file` from the source.  A result of `.ok none` means the
file was skipped before any extraction: nothing is printed and no output
file is written.  A result of `.ok (some out)` collects the reconciled
values, the bytes written to the destination and the timestamp side effect.
`.error` models an uncaught Python exception aborting the file. -/
def process_one_file (cfg : Config) (file : FileModel)
    (strategies formats : List String) : Except PErr (Option WriteOutcome) :=
  if !file.is_file then pure none
  else if pyStartsWithDot file.name then pure none
  else if pySuffix file.name = ".json" then pure none
  else do
    let st ← stratLoop cfg file formats strategies
    let date := st.1
    let location := st.2.1
    let image := st.2.2
    let pendDt : Option String :=
      match date, image with
      | some d, some _ => some (cfg.strftimeExif d)
      | _, _ => none
    let pendGps : Option CoordinatesDMS :=
      match location, image with
      | some l, some img => if img.gpsWritable then some l else none
      | _, _ => none
    let outBytes : List Nat :=
      match image with
      | some _ => serializeImage file.fileBytes pendDt pendGps
      | none => file.fileBytes
    let utime : Option (ℚ × ℚ) :=
      match date with
      | some d => some (d.timestamp, d.timestamp)
      | none => none
    pure (some ⟨date, location, outBytes, utime⟩)

/-- Spec-side definition for the priority law: the date that one named
strategy's extractor yields for this file, `none` for an unrecognized name,
an unopenable container, or an extractor that raises. -/
def stratDateOf (cfg : Config) (file : FileModel) (formats : List String)
    (strategy : String) : Option DateTime :=
  let s := pyLower strategy
  if s = "exif" then
    match file.image with
    | none => none
    | some image =>
      match get_info_from_exif cfg.strptimeExif image with
      | Except.ok r => r.1
      | Except.error _ => none
  else if s = "json" then
    match get_info_from_json file.sidecar with
    | Except.ok r => r.1
    | Except.error _ => none
  else if s = "filename" then
    (get_info_from_filename cfg.strptime cfg.fmtLen (pyStem file.name) formats).1
  else none

/-- Spec-side definition for the priority law: the location that one named
strategy's extractor yields for this file. -/
def stratLocOf (cfg : Config) (file : FileModel) (formats : List String)
    (strategy : String) : Option CoordinatesDMS :=
  let s := pyLower strategy
  if s = "exif" then
    match file.image with
    | none => none
    | some image =>
      match get_info_from_exif cfg.strptimeExif image with
      | Except.ok r => r.2
      | Except.error _ => none
  else if s = "json" then
    match get_info_from_json file.sidecar with
    | Except.ok r => r.2
    | Except.error _ => none
  else if s = "filename" then
    (get_info_from_filename cfg.strptime cfg.fmtLen (pyStem file.name) formats).2
  else none

lemma error_bind {α β : Type} (e : PErr) (f : α → Except PErr β) :
    (Except.error e >>= f) = Except.error e := rfl

lemma ok_bind {α β : Type} (a : α) (f : α → Except PErr β) :
    (Except.ok a >>= f) = f a := rfl

lemma pure_eq_ok {α : Type} (a : α) : (pure a : Except PErr α) = Except.ok a := rfl

lemma findSome?_cons_eq {α β : Type} (f : α → Option β) (a : α) (l : List α) :
    (a :: l).findSome? f = (f a).elim (l.findSome? f) some := by
  cases h : f a <;> simp [List.findSome?_cons, h]

lemma stratLoop_eq_foldr (cfg : Config) (file : FileModel) (formats : List String)
    (strategies : List String) :
    stratLoop cfg file formats strategies =
      strategies.foldr
        (fun s acc => acc >>= fun st => stratStep cfg file formats st s)
        (pure (none, none, none)) := by
  unfold stratLoop
  rw [List.foldl_reverse]

/-- Characterization of the strategy loop: when it completes without a
propagated exception, the merged date (resp. location) is the first-listed
strategy's non-absent date (resp. location). -/
lemma stratLoop_spec (cfg : Config) (file : FileModel) (formats : List String) :
    ∀ (l : List String) (st : LoopState),
      stratLoop cfg file formats l = Except.ok st →
      st.1 = l.findSome? (stratDateOf cfg file formats) ∧
      st.2.1 = l.findSome? (stratLocOf cfg file formats) := by
  intro l
  induction l with
  | nil =>
    intro st h
    rw [stratLoop_eq_foldr] at h
    simp only [List.foldr, pure_eq_ok, Except.ok.injEq] at h
    subst h
    simp [List.findSome?]
  | cons s l ih =>
    intro st h
    rw [stratLoop_eq_foldr] at h
    simp only [List.foldr] at h
    rw [← stratLoop_eq_foldr] at h
    cases hl : stratLoop cfg file formats l with
    | error e => rw [hl, error_bind] at h; cases h
    | ok st' =>
      rw [hl, ok_bind] at h
      obtain ⟨ihd, ihl⟩ := ih st' hl
      unfold stratStep at h
      by_cases h1 : pyLower s = "exif"
      · rw [if_pos h1] at h
        cases himg : file.image with
        | none =>
          simp only [himg, pure_eq_ok, Except.ok.injEq] at h
          subst h
          have hds : stratDateOf cfg file formats s = none := by
            simp [stratDateOf, h1, himg]
          have hls : stratLocOf cfg file formats s = none := by
            simp [stratLocOf, h1, himg]
          rw [findSome?_cons_eq, findSome?_cons_eq, hds, hls]
          exact ⟨ihd, ihl⟩
        | some image =>
          simp only [himg] at h
          cases hr : get_info_from_exif cfg.strptimeExif image with
          | error e => rw [hr, error_bind] at h; cases h
          | ok r =>
            rw [hr, ok_bind, pure_eq_ok, Except.ok.injEq] at h
            subst h
            have hds : stratDateOf cfg file formats s = r.1 := by
              simp [stratDateOf, h1, himg, hr]
            have hls : stratLocOf cfg file formats s = r.2 := by
              simp [stratLocOf, h1, himg, hr]
            rw [findSome?_cons_eq, findSome?_cons_eq, hds, hls]
            constructor
            · cases hd : r.1 <;> simp [pyOr, hd, ihd]
            · cases hd : r.2 <;> simp [pyOr, hd, ihl]
      · rw [if_neg h1] at h
        by_cases h2 : pyLower s = "json"
        · rw [if_pos h2] at h
          cases hr : get_info_from_json file.sidecar with
          | error e => rw [hr, error_bind] at h; cases h
          | ok r =>
            rw [hr, ok_bind, pure_eq_ok, Except.ok.injEq] at h
            subst h
            have hds : stratDateOf cfg file formats s = r.1 := by
              simp [stratDateOf, h1, h2, hr]
            have hls : stratLocOf cfg file formats s = r.2 := by
              simp [stratLocOf, h1, h2, hr]
            rw [findSome?_cons_eq, findSome?_cons_eq, hds, hls]
            constructor
            · cases hd : r.1 <;> simp [pyOr, hd, ihd]
            · cases hd : r.2 <;> simp [pyOr, hd, ihl]
        · rw [if_neg h2] at h
          by_cases h3 : pyLower s = "filename"
          · rw [if_pos h3] at h
            rw [pure_eq_ok, Except.ok.injEq] at h
            subst h
            have hds : stratDateOf cfg file formats s =
                (get_info_from_filename cfg.strptime cfg.fmtLen
                  (pyStem file.name) formats).1 := by
              simp [stratDateOf, h1, h2, h3]
            have hls : stratLocOf cfg file formats s =
                (get_info_from_filename cfg.strptime cfg.fmtLen
                  (pyStem file.name) formats).2 := by
              simp [stratLocOf, h1, h2, h3]
            rw [findSome?_cons_eq, findSome?_cons_eq, hds, hls]
            constructor
            · cases hd : (get_info_from_filename cfg.strptime cfg.fmtLen
                  (pyStem file.name) formats).1 <;> simp [pyOr, hd, ihd]
            · cases hd : (get_info_from_filename cfg.strptime cfg.fmtLen
                  (pyStem file.name) formats).2 <;> simp [pyOr, hd, ihl]
          · rw [if_neg h3, pure_eq_ok, Except.ok.injEq] at h
            subst h
            have hds : stratDateOf cfg file formats s = none := by
              simp [stratDateOf, h1, h2, h3]
            have hls : stratLocOf cfg file formats s = none := by
              simp [stratLocOf, h1, h2, h3]
            rw [findSome?_cons_eq, findSome?_cons_eq, hds, hls]
            exact ⟨ihd, ihl⟩

/-- C1: priority law of the reconciliation engine.  For every strategy list
and file, when the loop completes, the merged date (and likewise the merged
location) is the result of the first-listed strategy whose extractor
returned a non-absent value. -/
theorem c1_priority_law (cfg : Config) (file : FileModel) (formats : List String)
    (strategies : List String) (st : LoopState)
    (h : stratLoop cfg file formats strategies = Except.ok st) :
    st.1 = strategies.findSome? (stratDateOf cfg file formats) ∧
    st.2.1 = strategies.findSome? (stratLocOf cfg file formats) :=
  stratLoop_spec cfg file formats strategies st h

/-- C8: absence never overwrites.  If the first (highest-priority) strategy
extracts an absent date (resp. location) while the remaining lower-priority
strategies reconcile to a non-absent one, the lower-priority value is the
final result. -/
theorem c8_absence_never_overwrites (cfg : Config) (file : FileModel)
    (formats : List String) (a : String) (rest : List String) (st : LoopState)
    (h : stratLoop cfg file formats (a :: rest) = Except.ok st) :
    (∀ d, stratDateOf cfg file formats a = none →
      rest.findSome? (stratDateOf cfg file formats) = some d → st.1 = some d) ∧
    (∀ lo, stratLocOf cfg file formats a = none →
      rest.findSome? (stratLocOf cfg file formats) = some lo → st.2.1 = some lo) := by
  obtain ⟨hd, hl⟩ := stratLoop_spec cfg file formats (a :: rest) st h
  constructor
  · intro d had hrest
    rw [hd, findSome?_cons_eq, had]
    exact hrest
  · intro lo hal hrest
    rw [hl, findSome?_cons_eq, hal]
    exact hrest

lemma charOfNat_shift (n : ℕ) (hl : 65 ≤ n) (hu : n ≤ 90) :
    (Char.ofNat (n + 32)).toNat = n + 32 := by
  interval_cases n <;> decide

lemma charLower_idem (c : Char) : charLower (charLower c) = charLower c := by
  unfold charLower
  by_cases h : 65 ≤ c.toNat ∧ c.toNat ≤ 90
  · have h2 : ¬(65 ≤ c.toNat + 32 ∧ c.toNat + 32 ≤ 90) := by omega
    rw [if_pos h, charOfNat_shift c.toNat h.1 h.2, if_neg h2]
  · rw [if_neg h, if_neg h]

lemma pyLower_idem (s : String) : pyLower (pyLower s) = pyLower s := by
  unfold pyLower
  simp [List.map_map, Function.comp_def, charLower_idem]

lemma stratStep_pyLower (cfg : Config) (file : FileModel) (formats : List String)
    (st : LoopState) (s : String) :
    stratStep cfg file formats st (pyLower s) = stratStep cfg file formats st s := by
  unfold stratStep
  rw [pyLower_idem]

/-- C10: strategy-name matching is case-insensitive - each entry is
lowercased before comparison, so lowercasing the whole strategy list leaves
the reconciliation result unchanged; and a name that is not
exif/json/filename after lowercasing leaves the loop state untouched. -/
theorem c10_case_insensitive :
    (∀ (cfg : Config) (file : FileModel) (formats strategies : List String),
      stratLoop cfg file formats (strategies.map pyLower) =
        stratLoop cfg file formats strategies) ∧
    (∀ (cfg : Config) (file : FileModel) (formats : List String)
        (st : LoopState) (s : String),
      pyLower s ≠ "exif" → pyLower s ≠ "json" → pyLower s ≠ "filename" →
      stratStep cfg file formats st s = pure st) := by
  constructor
  · intro cfg file formats strategies
    rw [stratLoop_eq_foldr, stratLoop_eq_foldr]
    induction strategies with
    | nil => rfl
    | cons s l ih =>
      simp only [List.map_cons, List.foldr_cons]
      rw [ih]
      simp only [stratStep_pyLower]
  · intro cfg file formats st s h1 h2 h3
    unfold stratStep
    rw [if_neg h1, if_neg h2, if_neg h3]

/-- C3: the skip rule.  A file that is not a regular file, or whose name
starts with a dot, or whose suffix is `.json`, is skipped before any
extraction: `process_one_file` returns without printing a report line or
writing an output file, for every strategy configuration.  (This version of
the source has no `.gif` exclusion, so that clause of the rule is not
applicable here.) -/
theorem c3_skip_rule (cfg : Config) (file : FileModel)
    (strategies formats : List String)
    (h : file.is_file = false ∨ pyStartsWithDot file.name = true ∨
      pySuffix file.name = ".json") :
    process_one_file cfg file strategies formats = Except.ok none := by
  rcases h with h | h | h
  · simp [process_one_file, h, pure_eq_ok]
  · by_cases hf : file.is_file <;> simp [process_one_file, h, hf, pure_eq_ok]
  · by_cases hf : file.is_file
    · by_cases hd : pyStartsWithDot file.name <;>
        simp [process_one_file, h, hf, hd, pure_eq_ok]
    · simp [process_one_file, hf, pure_eq_ok]

/-- C5: the sidecar zero-sentinel.  For a sidecar whose JSON parses with the
expected schema, an exact `(0, 0)` geoData pair yields an absent location,
and any other pair yields the pair converted to DMS form. -/
theorem c5_sidecar_zero_sentinel (j : SidecarJson) (ts : String) (n : Int)
    (lat lon : ℚ)
    (hts : j.photoTakenTime_timestamp = some ts) (hn : parseIntStr ts = some n)
    (hlat : j.geoData_latitude = some lat) (hlon : j.geoData_longitude = some lon) :
    ((lat, lon) = ((0 : ℚ), (0 : ℚ)) →
      get_info_from_json (some (SidecarFile.parsed j)) =
        Except.ok (some (fromTimestampUtc n), none)) ∧
    ((lat, lon) ≠ ((0 : ℚ), (0 : ℚ)) →
      get_info_from_json (some (SidecarFile.parsed j)) =
        Except.ok (some (fromTimestampUtc n), some (coords_dec2dms (lat, lon)))) := by
  have base : get_info_from_json (some (SidecarFile.parsed j)) =
      Except.ok (some (fromTimestampUtc n),
        if (lat, lon) ≠ ((0 : ℚ), (0 : ℚ)) then some (coords_dec2dms (lat, lon))
        else none) := by
    unfold get_info_from_json
    simp only [hts, hn, hlat, hlon]
    rfl
  constructor
  · intro h0
    rw [base, if_neg (not_not_intro h0)]
  · intro hne
    rw [base, if_pos hne]

/-- The schema contract a sidecar file must satisfy for `get_info_from_json`
not to raise: the bytes parse as JSON, the `photoTakenTime.timestamp` path
exists and parses as an integer, and the `geoData.latitude`/`longitude`
paths exist. -/
def sidecarWellFormed : SidecarFile → Bool
  | SidecarFile.malformedJson => false
  | SidecarFile.parsed j =>
    (j.photoTakenTime_timestamp.elim false (fun s => (parseIntStr s).isSome)) &&
      j.geoData_latitude.isSome && j.geoData_longitude.isSome

lemma json_extractor_error (f : SidecarFile) (hf : sidecarWellFormed f = false) :
    ∃ e, get_info_from_json (some f) = Except.error e := by
  cases f with
  | malformedJson => exact ⟨PErr.jsonDecodeError, rfl⟩
  | parsed j =>
    cases hts : j.photoTakenTime_timestamp with
    | none => exact ⟨PErr.keyError, by simp [get_info_from_json, hts, error_bind]⟩
    | some s =>
      cases hp : parseIntStr s with
      | none =>
        exact ⟨PErr.valueError, by simp [get_info_from_json, hts, hp, error_bind]⟩
      | some n =>
        cases hlat : j.geoData_latitude with
        | none => exact ⟨PErr.keyError, by simp [get_info_from_json, hts, hp, hlat]⟩
        | some lat =>
          cases hlon : j.geoData_longitude with
          | none =>
            exact ⟨PErr.keyError, by simp [get_info_from_json, hts, hp, hlat, hlon]⟩
          | some lon =>
            exfalso
            simp [sidecarWellFormed, hts, hp, hlat, hlon] at hf

lemma foldr_error_absorb (cfg : Config) (file : FileModel) (formats : List String)
    (l : List String) (e : PErr) :
    l.foldr (fun s acc => acc >>= fun st => stratStep cfg file formats st s)
      (Except.error e) = Except.error e := by
  induction l with
  | nil => rfl
  | cons s l ih => simp only [List.foldr_cons]; rw [ih, error_bind]

lemma stratLoop_json_error (cfg : Config) (file : FileModel)
    (formats pre post : List String)
    (he : ∃ e, get_info_from_json file.sidecar = Except.error e) :
    ∃ e, stratLoop cfg file formats (pre ++ "json" :: post) = Except.error e := by
  obtain ⟨e, he⟩ := he
  rw [stratLoop_eq_foldr, List.foldr_append]
  have hinner : ∃ e2,
      ("json" :: post).foldr
        (fun s acc => acc >>= fun st => stratStep cfg file formats st s)
        (pure (none, none, none)) = Except.error e2 := by
    simp only [List.foldr_cons]
    cases hpost : post.foldr
        (fun s acc => acc >>= fun st => stratStep cfg file formats st s)
        (pure (none, none, none)) with
    | error e2 => exact ⟨e2, by rw [error_bind]⟩
    | ok st =>
      refine ⟨e, ?_⟩
      rw [ok_bind]
      unfold stratStep
      rw [if_neg (by decide : ¬pyLower "json" = "exif"),
        if_pos (by decide : pyLower "json" = "json"), he, error_bind]
  obtain ⟨e2, he2⟩ := hinner
  rw [he2, foldr_error_absorb]
  exact ⟨e2, rfl⟩

/-- C6: sidecar hard failure.  A missing sidecar yields `(absent, absent)`
without error; a sidecar that exists but is malformed or does not match the
expected schema makes the extractor raise, and the raised error propagates
out of `process_one_file` whenever the `json` strategy is configured. -/
theorem c6_sidecar_hard_failure :
    get_info_from_json none = Except.ok (none, none) ∧
    (∀ f : SidecarFile, sidecarWellFormed f = false →
      ∃ e, get_info_from_json (some f) = Except.error e) ∧
    (∀ (cfg : Config) (file : FileModel) (pre post formats : List String)
        (f : SidecarFile),
      file.is_file = true → pyStartsWithDot file.name = false →
      pySuffix file.name ≠ ".json" → file.sidecar = some f →
      sidecarWellFormed f = false →
      ∃ e, process_one_file cfg file (pre ++ "json" :: post) formats =
        Except.error e) := by
  refine ⟨rfl, json_extractor_error, ?_⟩
  intro cfg file pre post formats f hisf hdot hsuf hsc hwf
  have he : ∃ e, get_info_from_json file.sidecar = Except.error e := by
    rw [hsc]; exact json_extractor_error f hwf
  obtain ⟨e2, he2⟩ := stratLoop_json_error cfg file formats pre post he
  refine ⟨e2, ?_⟩
  unfold process_one_file
  rw [if_neg (by simp [hisf]), if_neg (by simp [hdot]), if_neg hsuf, he2, error_bind]

lemma c7_loop (cfg : Config) (file : FileModel) (formats : List String)
    (hsc : file.sidecar = none)
    (himg : ∀ img, file.image = some img → img.has_exif = false)
    (hfn : ∀ fstr ∈ formats,
      cfg.strptime (String.mk ((pyStem file.name).data.take (cfg.fmtLen fstr))) fstr
        = none) :
    ∀ strategies, ∃ io,
      stratLoop cfg file formats strategies = Except.ok (none, none, io) := by
  intro strategies
  induction strategies with
  | nil => exact ⟨none, rfl⟩
  | cons s l ih =>
    obtain ⟨io, hio⟩ := ih
    rw [stratLoop_eq_foldr, List.foldr_cons, ← stratLoop_eq_foldr, hio, ok_bind]
    unfold stratStep
    by_cases h1 : pyLower s = "exif"
    · rw [if_pos h1]
      cases hi : file.image with
      | none => exact ⟨none, rfl⟩
      | some img =>
        have hnx : img.has_exif = false := himg img hi
        refine ⟨some img, ?_⟩
        simp [get_info_from_exif, hnx, ok_bind, pyOr, pure_eq_ok]
    · rw [if_neg h1]
      by_cases h2 : pyLower s = "json"
      · rw [if_pos h2]
        refine ⟨io, ?_⟩
        rw [hsc]
        rfl
      · rw [if_neg h2]
        by_cases h3 : pyLower s = "filename"
        · rw [if_pos h3]
          refine ⟨io, ?_⟩
          have hnone : (get_info_from_filename cfg.strptime cfg.fmtLen
              (pyStem file.name) formats).1 = none := by
            unfold get_info_from_filename
            exact List.findSome?_eq_none_iff.mpr hfn
          rw [show get_info_from_filename cfg.strptime cfg.fmtLen
              (pyStem file.name) formats =
                (none, none) from Prod.ext hnone rfl]
          rfl
        · rw [if_neg h3]
          exact ⟨io, rfl⟩

/-- C7: pass-through.  A processed file with no embedded-metadata block
(the container either fails to open or opens with `has_exif` false), no
sidecar, and a filename matching no configured pattern is written to the
output byte-for-byte, and its filesystem timestamps are not touched. -/
theorem c7_passthrough (cfg : Config) (file : FileModel)
    (strategies formats : List String)
    (hisf : file.is_file = true) (hdot : pyStartsWithDot file.name = false)
    (hsuf : pySuffix file.name ≠ ".json") (hsc : file.sidecar = none)
    (himg : ∀ img, file.image = some img → img.has_exif = false)
    (hfn : ∀ fstr ∈ formats,
      cfg.strptime (String.mk ((pyStem file.name).data.take (cfg.fmtLen fstr))) fstr
        = none) :
    ∃ out, process_one_file cfg file strategies formats = Except.ok (some out) ∧
      out.outBytes = file.fileBytes ∧ out.utime = none ∧ out.date = none := by
  obtain ⟨io, hio⟩ := c7_loop cfg file formats hsc himg hfn strategies
  refine ⟨⟨none, none, file.fileBytes, none⟩, ?_, rfl, rfl, rfl⟩
  unfold process_one_file
  rw [if_neg (by simp [hisf]), if_neg (by simp [hdot]), if_neg hsuf, hio, ok_bind]
  cases io <;> rfl

/-- C9: timestamp side effect.  For every non-skipped file that completes,
the `(atime, mtime)` pair passed to `os.utime` on the destination is exactly
the reconciled date's timestamp duplicated when a date was found, and no
timestamp call is made when no date was found. -/
theorem c9_timestamp_side_effect (cfg : Config) (file : FileModel)
    (strategies formats : List String) (out : WriteOutcome)
    (h : process_one_file cfg file strategies formats = Except.ok (some out)) :
    out.utime = out.date.map (fun d => (DateTime.timestamp d, DateTime.timestamp d)) := by
  unfold process_one_file at h
  split_ifs at h with h1 h2 h3
  · rw [pure_eq_ok, Except.ok.injEq] at h; cases h
  · rw [pure_eq_ok, Except.ok.injEq] at h; cases h
  · rw [pure_eq_ok, Except.ok.injEq] at h; cases h
  · cases hl : stratLoop cfg file formats strategies with
    | error e => rw [hl, error_bind] at h; cases h
    | ok st =>
      obtain ⟨d, l, io⟩ := st
      rw [hl, ok_bind, pure_eq_ok, Except.ok.injEq, Option.some.injEq] at h
      subst h
      cases d <;> rfl

/-- C2: embedded-metadata date parsing.  The integer-millisecond parse is
tried first, then the fixed textual pattern; a datetime attribute raising
`AttributeError` is tolerated; but when BOTH parses fail, the `ValueError`
raised by `strptime` escapes the extractor, because the source's handler
`except AttributeError or ValueError:` catches only `AttributeError`.  The
third conjunct evaluates the extractor at such a failing input. -/
theorem c2_exif_parse_failure_raises :
    get_info_from_exif
        (fun s => if s = "2020:01:01 00:00:00" then some 1577836800 else none)
        ⟨true, some "86400000", none, none, none, none, true⟩ =
      Except.ok (some (fromTimestampMs 86400000), none) ∧
    get_info_from_exif
        (fun s => if s = "2020:01:01 00:00:00" then some 1577836800 else none)
        ⟨true, some "2020:01:01 00:00:00", none, none, none, none, true⟩ =
      Except.ok (some 1577836800, none) ∧
    get_info_from_exif
        (fun s => if s = "2020:01:01 00:00:00" then some 1577836800 else none)
        ⟨true, some "not a date", none, none, none, none, true⟩ =
      Except.error PErr.valueError ∧
    get_info_from_exif
        (fun s => if s = "2020:01:01 00:00:00" then some 1577836800 else none)
        ⟨true, none, none, none, none, none, true⟩ =
      Except.ok (none, none) :=
  ⟨rfl, rfl, rfl, rfl⟩

/-- A concrete oracle configuration for evaluating the theorems on sample
files: one recognized filename format `fmtA` of rendered length 5. -/
def cfgA : Config :=
  ⟨fun s fstr => if fstr = "fmtA" ∧ s = "IMG_x" then some 333 else none,
   fun _ => 5, fun _ => none, fun _ => "dt"⟩

/-- A concrete container with a millisecond-epoch date field and no GPS. -/
def imageA : ExifData := ⟨true, some "100000", none, none, none, none, true⟩

/-- A concrete well-formed sidecar with timestamp 222 and the (0,0) GPS
sentinel. -/
def sidecarA : SidecarFile := SidecarFile.parsed ⟨some "222", some 0, some 0⟩

/-- A concrete file for which all three extractors yield distinct dates. -/
def fileA : FileModel := ⟨true, "IMG_xyz.jpg", [1, 2, 3], some imageA, some sidecarA⟩

/-- The loop state `stratLoop` reaches on `fileA` with the default strategy
order. -/
def stA : LoopState := (some (fromTimestampMs 100000), none, some imageA)

/-- Witness for C1: on `fileA`, where exif, json and filename extract the
distinct dates 100, 222 and 333, the merged date is the first-listed
strategy's. -/
theorem c1_priority_law_witness :
    stA.1 = ["exif", "json", "filename"].findSome? (stratDateOf cfgA fileA ["fmtA"]) ∧
    stA.2.1 = ["exif", "json", "filename"].findSome? (stratLocOf cfgA fileA ["fmtA"]) :=
  c1_priority_law cfgA fileA ["fmtA"] ["exif", "json", "filename"] stA rfl

/-- The loop state `stratLoop` reaches on `fileA` with an unrecognized first
strategy followed by `json`. -/
def stB : LoopState := (some (fromTimestampUtc 222), none, none)

/-- Witness for C8: a first strategy with an absent date does not overwrite
the date found by the lower-priority `json` strategy. -/
theorem c8_absence_never_overwrites_witness : stB.1 = some (fromTimestampUtc 222) :=
  (c8_absence_never_overwrites cfgA fileA ["fmtA"] "blah" ["json"] stB rfl).1
    (fromTimestampUtc 222) rfl rfl

/-- Witness for C10 at mixed-case strategy names and at an unrecognized
name. -/
theorem c10_case_insensitive_witness :
    stratLoop cfgA fileA ["fmtA"] (["EXIF", "Json"].map pyLower) =
      stratLoop cfgA fileA ["fmtA"] ["EXIF", "Json"] ∧
    stratStep cfgA fileA ["fmtA"] (none, none, none) "bogus" =
      pure (none, none, none) :=
  ⟨c10_case_insensitive.1 cfgA fileA ["fmtA"] ["EXIF", "Json"],
   c10_case_insensitive.2 cfgA fileA ["fmtA"] (none, none, none) "bogus"
     (by decide) (by decide) (by decide)⟩

/-- A concrete hidden file. -/
def fileHidden : FileModel := ⟨true, ".foo.jpg", [], none, none⟩

/-- Witness for C3 at a hidden file. -/
theorem c3_skip_rule_witness :
    process_one_file cfgA fileHidden ["exif"] [] = Except.ok none :=
  c3_skip_rule cfgA fileHidden ["exif"] [] (Or.inr (Or.inl rfl))

/-- A concrete sidecar JSON object carrying the (0,0) sentinel. -/
def jZero : SidecarJson := ⟨some "5", some 0, some 0⟩

/-- A concrete sidecar JSON object carrying a non-sentinel location. -/
def jLoc : SidecarJson := ⟨some "5", some 2, some 3⟩

/-- Witness for C5 at a (0,0) sidecar and at a (2,3) sidecar. -/
theorem c5_sidecar_zero_sentinel_witness :
    get_info_from_json (some (SidecarFile.parsed jZero)) =
      Except.ok (some (fromTimestampUtc 5), none) ∧
    get_info_from_json (some (SidecarFile.parsed jLoc)) =
      Except.ok (some (fromTimestampUtc 5), some (coords_dec2dms (2, 3))) :=
  ⟨(c5_sidecar_zero_sentinel jZero "5" 5 0 0 rfl rfl rfl rfl).1 rfl,
   (c5_sidecar_zero_sentinel jLoc "5" 5 2 3 rfl rfl rfl rfl).2
     (by norm_num [Prod.ext_iff])⟩

/-- A concrete file next to an unparseable sidecar. -/
def fileBad : FileModel := ⟨true, "b.jpg", [9], none, some SidecarFile.malformedJson⟩

/-- Witness for C6: a malformed sidecar aborts the file when `json` is among
the strategies. -/
theorem c6_sidecar_hard_failure_witness :
    ∃ e, process_one_file cfgA fileBad (["exif"] ++ "json" :: []) [] = Except.error e :=
  c6_sidecar_hard_failure.2.2 cfgA fileBad ["exif"] [] [] SidecarFile.malformedJson
    rfl rfl (by decide) rfl rfl

/-- An oracle configuration whose date parsers never succeed. -/
def cfgB : Config := ⟨fun _ _ => none, fun _ => 0, fun _ => none, fun _ => ""⟩

/-- A concrete file with no container, no sidecar and a non-matching name. -/
def fileC : FileModel := ⟨true, "plain.bin", [4, 5], none, none⟩

/-- Witness for C7 at a plain file with no metadata source at all. -/
theorem c7_passthrough_witness :
    ∃ out, process_one_file cfgB fileC ["exif", "json", "filename"] ["IMG"] =
        Except.ok (some out) ∧
      out.outBytes = fileC.fileBytes ∧ out.utime = none ∧ out.date = none :=
  c7_passthrough cfgB fileC ["exif", "json", "filename"] ["IMG"] rfl rfl
    (by decide) rfl (fun img h => by cases h) (fun fstr _ => rfl)

/-- The outcome `process_one_file` produces on `fileA` with only the `json`
strategy. -/
def outA : WriteOutcome :=
  ⟨some (fromTimestampUtc 222), none, [1, 2, 3],
    some (fromTimestampUtc 222, fromTimestampUtc 222)⟩

/-- Witness for C9: the destination timestamps equal the reconciled date's
timestamp when a date was found. -/
theorem c9_timestamp_side_effect_witness :
    outA.utime = outA.date.map (fun d => (DateTime.timestamp d, DateTime.timestamp d)) :=
  c9_timestamp_side_effect cfgA fileA ["json"] ["fmtA"] outA rfl

end Metadater
